import Mathlib

/-
  Verification development for the PROS serial driver
  (src/system/dev/ser_driver.c).

  The driver is shallowly embedded: machine integers become Nat with
  explicit masking where overflow or bit operations matter, the output
  ring buffer becomes a List Nat of bytes, the enabled-streams set
  becomes a List Nat of stream ids, and the external synchronization
  primitives (mutexes, the bounded byte queue, the inbound byte source,
  the VEX transport) are modelled from the specification since their
  implementations are outside this source tree.  Fallible operations
  return Option; a blocking operation that can never complete in a
  sequential model is mapped to none.
-/

namespace SerDriver

/-! Constants from ser_driver.c and the platform headers. -/

def VEX_SERIAL_BUFFER_SIZE : Nat := 2047

def STDIN_STREAM_ID : Nat := 0x706e6973
def STDOUT_STREAM_ID : Nat := 0x74756f73
def STDERR_STREAM_ID : Nat := 0x72726573
def KDBG_STREAM_ID : Nat := 0x6762646b

def STDIN_FILENO : Nat := 0
def STDOUT_FILENO : Nat := 1
def STDERR_FILENO : Nat := 2

/-- newlib errno values used by the driver. -/
def EACCES : Nat := 13

def EIO : Nat := 5

def ENAMETOOLONG : Nat := 91

/-- TIMEOUT_MAX from the PROS RTOS API: wait indefinitely (uint32 max). -/
def TIMEOUT_MAX : Nat := 4294967295

/-- Flag bit E_NOBLK_WRITE of ser_file_s_t.flags. -/
def E_NOBLK_WRITE : Nat := 1

/-- Bitwise complement of E_NOBLK_WRITE as a uint32, used by SERCTL_BLKWRITE. -/
def NOT_E_NOBLK_WRITE : Nat := 4294967294

/-- Flag bit E_COBS_ENABLED of ser_driver_runtime_config. -/
def E_COBS_ENABLED : Nat := 1

/-- Bitwise complement of E_COBS_ENABLED as a uint32, used by SERCTL_DISABLE_COBS. -/
def NOT_E_COBS_ENABLED : Nat := 4294967294

/-- ser_file_s_t: per-handle record, a 4-byte stream id and a flags word. -/
structure ser_file_s_t where
  stream_id : Nat
  flags : Nat
deriving DecidableEq, Repr

/-- guaranteed_delivery_streams: only stderr is guaranteed delivery. -/
def guaranteed_delivery_streams : List Nat := [STDERR_STREAM_ID]

/-- Modelled from the spec: list_contains (common/string.h, not in this tree)
is membership of a value in a fixed array of stream ids. -/
def list_contains (l : List Nat) (x : Nat) : Bool :=
  l.contains x

/-- Modelled from the spec: set_contains (common/set.h, not in this tree)
tests membership of a stream id in the mutable set of enabled streams. -/
def set_contains (s : List Nat) (x : Nat) : Bool :=
  s.contains x

/-- Modelled from the spec: set_add inserts a stream id into the set
(no duplicates; insertion order is irrelevant, membership-tested only). -/
def set_add (s : List Nat) (x : Nat) : List Nat :=
  if s.contains x then s else x :: s

/-- Modelled from the spec: set_rm removes a stream id from the set. -/
def set_rm (s : List Nat) (x : Nat) : List Nat :=
  s.erase x

/-! The output queue.  The bounded FIFO byte queue primitive
(queue_append / queue_recv / queue_reset / queue_get_waiting) lives
outside this tree; it is modelled from the spec as a List Nat of bytes
bounded by VEX_SERIAL_BUFFER_SIZE. -/

/-- Modelled from the spec: queue_append of a single byte succeeds exactly
when the bounded queue has room, appending at the tail. -/
def queue_append (q : List Nat) (b : Nat) : Option (List Nat) :=
  if q.length < VEX_SERIAL_BUFFER_SIZE then some (q ++ [b]) else none

/-- Modelled from the spec: one queue_recv with zero timeout removes the
head byte (no effect on an empty queue). -/
def queue_recv (q : List Nat) : List Nat :=
  q.drop 1

/-- The loop `while (ret--) queue_recv(write_queue, NULL, 0)` of
ser_output_flush: n receives from the head. -/
def queueRecvN : Nat → List Nat → List Nat
  | 0, q => q
  | n + 1, q => queueRecvN n (queue_recv q)

/-- ser_output_flush, with the external transport modelled from the spec by
two values: free, the result of vexSerialWriteFree, and accepted, the
number of bytes the bulk vexSerialWriteBuffer call reports accepted.
If at least one byte waits and the transport has room for all of them,
the bulk write is issued; full acceptance resets the queue, partial
acceptance removes exactly the accepted bytes from the head. -/
def ser_output_flush (queue : List Nat) (free : Nat) (accepted : Nat) : List Nat :=
  let waiting := queue.length
  if waiting ≠ 0 ∧ waiting ≤ free then
    if accepted = waiting then
      []
    else
      queueRecvN accepted queue
  else
    queue

/-- ser_output_write: append the buffer to the queue one byte at a time.
A failed queue_append under non-blocking mode returns false with the
bytes appended so far kept (the source does not back them out); under
blocking mode the append would wait forever for space that a sequential
model never frees, so that path is modelled as none (divergence). -/
def ser_output_write (noblock : Bool) : List Nat → List Nat → Option (Bool × List Nat)
  | queue, [] => some (true, queue)
  | queue, b :: rest =>
    match queue_append queue b with
    | some queue2 => ser_output_write noblock queue2 rest
    | none => if noblock then some (false, queue) else none

/-! COBS framing.  cobs_encode and cobs_encode_measure (common/cobs.c)
are outside this tree. -/

/-- The 4 bytes of a stream id in little-endian order, as prepended to the
payload by the frame codec. -/
def streamIdBytes (id : Nat) : List Nat :=
  [id % 256, id / 256 % 256, id / 65536 % 256, id / 16777216 % 256]

/-- Modelled from the spec: the body of a COBS encoding — the data is cut
into zero-free groups of at most 254 bytes, each emitted behind an
overhead byte holding the group length plus one (255 marks a full group
whose terminating zero is not consumed).  Fuel bounds the recursion; it
is instantiated with more than the data length. -/
def cobsBody : Nat → List Nat → List Nat
  | _, [] => [1]
  | 0, _ => []
  | fuel + 1, data =>
    let run := (data.takeWhile (fun b => b ≠ 0)).take 254
    let rest := data.drop run.length
    if run.length = 254 then
      (255 :: run) ++ cobsBody fuel rest
    else
      match rest with
      | 0 :: rest2 => ((run.length + 1) :: run) ++ cobsBody fuel rest2
      | _ => (run.length + 1) :: run

/-- Modelled from the spec: cobs_encode frames the 4 stream-id bytes
followed by the payload with the zero-removing overhead-byte scheme;
the trailing zero delimiter is appended by the caller, not here. -/
def cobs_encode (buf : List Nat) (stream_id : Nat) : List Nat :=
  let data := streamIdBytes stream_id ++ buf
  cobsBody (data.length + 1) data

/-- Modelled from the spec: cobs_encode_measure returns the exact encoded
length for the same payload and stream id. -/
def cobs_encode_measure (buf : List Nat) (stream_id : Nat) : Nat :=
  (cobs_encode buf stream_id).length

/-! The write path. -/

/-- The policy filter at the top of ser_write_r: a stream is filtered out
when it is neither in guaranteed_delivery_streams nor in the
enabled-streams set. -/
def ser_write_filtered (enabled : List Nat) (stream_id : Nat) : Bool :=
  !list_contains guaranteed_delivery_streams stream_id && !set_contains enabled stream_id

/-- Outcome of one ser_write_r call: the int return value, the errno side
channel (none when untouched), the output queue afterwards, the runtime
config word afterwards (the branch condition assigns it), and a trace of
the timeout passed to mutex_take (none when the call never locked). -/
structure WriteResult where
  ret : Nat
  errno : Option Nat
  queue : List Nat
  config : Nat
  lockTimeout : Option Nat
deriving DecidableEq, Repr

/-- ser_write_r.  mutexTake models the write mutex: given the timeout
argument it answers whether mutex_take succeeded.  The condition
`if (ser_driver_runtime_config &= E_COBS_ENABLED)` both masks the config
word and branches on the result.  In the COBS branch the lock timeout is
zero when the handle has E_NOBLK_WRITE and TIMEOUT_MAX otherwise; in the
raw branch it is unconditionally TIMEOUT_MAX. -/
def ser_write_r (mutexTake : Nat → Bool) (file : ser_file_s_t) (enabled : List Nat)
    (config : Nat) (queue : List Nat) (buf : List Nat) : Option WriteResult :=
  let len := buf.length
  if ser_write_filtered enabled file.stream_id then
    some { ret := len, errno := none, queue := queue, config := config, lockTimeout := none }
  else
    let config2 := config.land E_COBS_ENABLED
    if config2 ≠ 0 then
      let timeout := if file.flags.land E_NOBLK_WRITE ≠ 0 then 0 else TIMEOUT_MAX
      if mutexTake timeout = false then
        some { ret := 0, errno := some EACCES, queue := queue, config := config2,
               lockTimeout := some timeout }
      else
        let frame := cobs_encode buf file.stream_id ++ [0]
        match ser_output_write (file.flags.land E_NOBLK_WRITE ≠ 0) queue frame with
        | none => none
        | some (false, q2) =>
          some { ret := 0, errno := some EIO, queue := q2, config := config2,
                 lockTimeout := some timeout }
        | some (true, q2) =>
          some { ret := len, errno := none, queue := q2, config := config2,
                 lockTimeout := some timeout }
    else
      if mutexTake TIMEOUT_MAX = false then
        some { ret := 0, errno := some EACCES, queue := queue, config := config2,
               lockTimeout := some TIMEOUT_MAX }
      else
        match ser_output_write (file.flags.land E_NOBLK_WRITE ≠ 0) queue buf with
        | none => none
        | some (false, q2) =>
          some { ret := 0, errno := some EIO, queue := q2, config := config2,
                 lockTimeout := some TIMEOUT_MAX }
        | some (true, q2) =>
          some { ret := len, errno := none, queue := q2, config := config2,
                 lockTimeout := some TIMEOUT_MAX }

/-! The read path. -/

/-- Outcome of one ser_read_r call: the trace of stores into the caller
buffer as (index, byte) pairs in program order, the return value, and
the errno side channel. -/
structure ReadResult where
  writes : List (Nat × Nat)
  ret : Nat
  errno : Option Nat
deriving DecidableEq, Repr

/-- The accumulation loop of ser_read_r.  The inbound source
inp_buffer_read (from ser_daemon.c, outside this tree) is modelled from
the spec as the list of its successive return values; an exhausted list
means every further poll returns the no-data signal -1.  tr is the trace
of stores so far (read equals tr.length).  A byte is stored as its
uint8_t cast; the loop breaks after storing a newline, breaks on -1 once
something was read, keeps polling on -1 otherwise (none when that
polling never ends), and stops once len bytes are stored. -/
def serReadLoop (len : Nat) : List Int → List (Nat × Nat) → Option (List (Nat × Nat))
  | [], tr =>
    if len ≤ tr.length then some tr
    else if 0 < tr.length then some tr
    else none
  | c :: rest, tr =>
    if len ≤ tr.length then some tr
    else if c = -1 then
      if 0 < tr.length then some tr else serReadLoop len rest tr
    else
      let tr2 := tr ++ [(tr.length, (c % 256).toNat)]
      if c = 10 then some tr2 else serReadLoop len rest tr2

/-- ser_read_r.  lockOk models whether mutex_take(read_mtx, TIMEOUT_MAX)
succeeded.  On failure: errno EACCES, zero returned, nothing stored.
Otherwise the loop runs and a zero byte is stored one past the last
accumulated byte (the pointer has advanced read positions). -/
def ser_read_r (lockOk : Bool) (input : List Int) (len : Nat) : Option ReadResult :=
  if lockOk then
    match serReadLoop len input [] with
    | none => none
    | some tr =>
      some { writes := tr ++ [(tr.length, 0)], ret := tr.length, errno := none }
  else
    some { writes := [], ret := 0, errno := some EACCES }

/-! The open path. -/

/-- Indexing a C string modelled as the list of its bytes before the
terminator: the terminator itself reads as the null character. -/
def cstrNth (p : List Char) (i : Nat) : Char :=
  if h : i < p.length then p.get ⟨i, h⟩ else Char.ofNat 0

/-- The length-check loop of ser_open_r, unrolled: i runs from 0 and stops
at the first null among the first four characters, else at 4. -/
def serOpenLenLoop (p : List Char) : Nat :=
  if cstrNth p 0 = Char.ofNat 0 then 0
  else if cstrNth p 1 = Char.ofNat 0 then 1
  else if cstrNth p 2 = Char.ofNat 0 then 2
  else if cstrNth p 3 = Char.ofNat 0 then 3
  else 4

/-- The path after `if (*path == '/') path++;` — one leading separator is
stripped. -/
def serStrippedPath : List Char → List Char
  | [] => []
  | c :: rest => if c = '/' then rest else c :: rest

/-- Result of ser_open_r: a reserved file descriptor, an error with errno,
or a fresh vfs entry carrying the new ser_file_s_t stream bytes. -/
inductive OpenResult where
  | fd : Nat → OpenResult
  | err : Nat → OpenResult
  | vfsAdd : List Char → OpenResult
deriving DecidableEq, Repr

/-- ser_open_r.  The empty path returns stdout; otherwise one leading
slash is stripped, paths longer than 4 characters fail with
ENAMETOOLONG, the reserved names map to the reserved descriptors, and
anything else allocates a fresh vfs entry (vfs_add_entry_r is outside
this tree). -/
def ser_open_r (path : List Char) : OpenResult :=
  if path = [] then
    OpenResult.fd STDOUT_FILENO
  else
    let p := serStrippedPath path
    if cstrNth p (serOpenLenLoop p) ≠ Char.ofNat 0 then
      OpenResult.err ENAMETOOLONG
    else if p = "sout".toList then
      OpenResult.fd STDOUT_FILENO
    else if p = "sin".toList then
      OpenResult.fd STDIN_FILENO
    else if p = "serr".toList then
      OpenResult.fd STDERR_FILENO
    else
      OpenResult.vfsAdd p

/-! The control interface. -/

/-- The serctl verbs; unknown covers every unrecognized action value. -/
inductive SerctlAction where
  | activate
  | deactivate
  | blkwrite
  | noblkwrite
  | enableCobs
  | disableCobs
  | unknown
deriving DecidableEq, Repr

/-- Outcome of one serctl call: the uint32 return value, the
enabled-streams set and runtime config afterwards, the contents of the
handle record *arg after the call, and the final value of the local
variable file that serctl copies the record into. -/
structure SerctlResult where
  ret : Nat
  enabled : List Nat
  config : Nat
  handle : Option ser_file_s_t
  localFile : Option ser_file_s_t
deriving DecidableEq, Repr

/-- serctl.  The record behind arg is copied into the local variable file;
the BLKWRITE and NOBLKWRITE verbs update the flags of that local copy
and never store it back, so the handle record itself is returned
unchanged on every verb.  ACTIVATE and DEACTIVATE skip
guaranteed-delivery streams; the COBS verbs set and clear the config
bit; unknown verbs return uint32 -1 and change nothing. -/
def serctl (arg : Option ser_file_s_t) (action : SerctlAction) (parameter : Nat)
    (enabled : List Nat) (config : Nat) : SerctlResult :=
  match action with
  | SerctlAction.activate =>
    { ret := 0,
      enabled := if list_contains guaranteed_delivery_streams parameter then enabled
                 else set_add enabled parameter,
      config := config, handle := arg, localFile := arg }
  | SerctlAction.deactivate =>
    { ret := 0,
      enabled := if list_contains guaranteed_delivery_streams parameter then enabled
                 else set_rm enabled parameter,
      config := config, handle := arg, localFile := arg }
  | SerctlAction.blkwrite =>
    { ret := 0, enabled := enabled, config := config, handle := arg,
      localFile := arg.map fun f => { f with flags := f.flags.land NOT_E_NOBLK_WRITE } }
  | SerctlAction.noblkwrite =>
    { ret := 0, enabled := enabled, config := config, handle := arg,
      localFile := arg.map fun f => { f with flags := f.flags.lor E_NOBLK_WRITE } }
  | SerctlAction.enableCobs =>
    { ret := 0, enabled := enabled, config := config.lor E_COBS_ENABLED,
      handle := arg, localFile := arg }
  | SerctlAction.disableCobs =>
    { ret := 0, enabled := enabled, config := config.land NOT_E_COBS_ENABLED,
      handle := arg, localFile := arg }
  | SerctlAction.unknown =>
    { ret := 4294967295, enabled := enabled, config := config,
      handle := arg, localFile := arg }

/-! Helper lemmas. -/

theorem queueRecvN_eq_drop (n : Nat) : ∀ q : List Nat, queueRecvN n q = q.drop n := by
  induction n with
  | zero => intro q; rfl
  | succ n ih =>
    intro q
    rw [queueRecvN, queue_recv, ih, List.drop_drop, Nat.add_comm]

theorem ser_output_write_success (noblock : Bool) :
    ∀ (buf queue : List Nat), queue.length + buf.length ≤ VEX_SERIAL_BUFFER_SIZE →
      ser_output_write noblock queue buf = some (true, queue ++ buf) := by
  intro buf
  induction buf with
  | nil => intro queue _; simp [ser_output_write]
  | cons b rest ih =>
    intro queue h
    rw [ser_output_write, queue_append, if_pos (by simp at h; omega)]
    show ser_output_write noblock (queue ++ [b]) rest = some (true, queue ++ b :: rest)
    rw [ih (queue ++ [b]) (by simp at h ⊢; omega)]
    simp

/-! Claim theorems. -/

/-- C1: a write whose stream id is neither in the guaranteed-delivery list
nor in the enabled-streams set returns the full length as success, sets
no errno, never touches the lock, and enqueues nothing. -/
theorem write_filtered_silent_success (mt : Nat → Bool) (file : ser_file_s_t)
    (enabled : List Nat) (config : Nat) (queue buf : List Nat)
    (hg : list_contains guaranteed_delivery_streams file.stream_id = false)
    (he : set_contains enabled file.stream_id = false) :
    ser_write_r mt file enabled config queue buf =
      some { ret := buf.length, errno := none, queue := queue, config := config,
             lockTimeout := none } := by
  simp [ser_write_r, ser_write_filtered, hg, he]

/-- Witness for C1 at the kernel-debug stream with an empty registry. -/
theorem write_filtered_silent_success_witness :
    list_contains guaranteed_delivery_streams KDBG_STREAM_ID = false ∧
    set_contains [] KDBG_STREAM_ID = false ∧
    ser_write_r (fun _ => true) ⟨KDBG_STREAM_ID, 0⟩ [] 1 [] [1, 2] =
      some { ret := 2, errno := none, queue := [], config := 1, lockTimeout := none } :=
  ⟨by decide, by decide,
    write_filtered_silent_success (fun _ => true) ⟨KDBG_STREAM_ID, 0⟩ [] 1 [] [1, 2]
      (by decide) (by decide)⟩

/-- C2: the stderr stream is never policy-filtered whatever the registry
holds, and ACTIVATE and DEACTIVATE on a guaranteed-delivery stream id
leave the registry unchanged while returning 0. -/
theorem stderr_guaranteed_and_serctl_noop (tag : Nat)
    (hg : list_contains guaranteed_delivery_streams tag = true) :
    (∀ enabled, ser_write_filtered enabled STDERR_STREAM_ID = false) ∧
    (∀ (arg : Option ser_file_s_t) (en : List Nat) (cfg : Nat),
      (serctl arg SerctlAction.activate tag en cfg).enabled = en ∧
      (serctl arg SerctlAction.activate tag en cfg).ret = 0 ∧
      (serctl arg SerctlAction.deactivate tag en cfg).enabled = en ∧
      (serctl arg SerctlAction.deactivate tag en cfg).ret = 0) := by
  constructor
  · intro enabled
    have h : list_contains guaranteed_delivery_streams STDERR_STREAM_ID = true := by decide
    simp [ser_write_filtered, h]
  · intro arg en cfg
    simp [serctl, hg]

/-- Witness for C2 at the stderr stream id itself. -/
theorem stderr_guaranteed_and_serctl_noop_witness :
    list_contains guaranteed_delivery_streams STDERR_STREAM_ID = true ∧
    ser_write_filtered [STDOUT_STREAM_ID] STDERR_STREAM_ID = false ∧
    (serctl none SerctlAction.activate STDERR_STREAM_ID [STDOUT_STREAM_ID] 1).enabled =
      [STDOUT_STREAM_ID] ∧
    (serctl none SerctlAction.activate STDERR_STREAM_ID [STDOUT_STREAM_ID] 1).ret = 0 ∧
    (serctl none SerctlAction.deactivate STDERR_STREAM_ID [STDOUT_STREAM_ID] 1).enabled =
      [STDOUT_STREAM_ID] ∧
    (serctl none SerctlAction.deactivate STDERR_STREAM_ID [STDOUT_STREAM_ID] 1).ret = 0 :=
  ⟨by decide,
    (stderr_guaranteed_and_serctl_noop STDERR_STREAM_ID (by decide)).1 [STDOUT_STREAM_ID],
    ((stderr_guaranteed_and_serctl_noop STDERR_STREAM_ID (by decide)).2 none
        [STDOUT_STREAM_ID] 1).1,
    ((stderr_guaranteed_and_serctl_noop STDERR_STREAM_ID (by decide)).2 none
        [STDOUT_STREAM_ID] 1).2.1,
    ((stderr_guaranteed_and_serctl_noop STDERR_STREAM_ID (by decide)).2 none
        [STDOUT_STREAM_ID] 1).2.2.1,
    ((stderr_guaranteed_and_serctl_noop STDERR_STREAM_ID (by decide)).2 none
        [STDOUT_STREAM_ID] 1).2.2.2⟩

/-- C3: the SERCTL_NOBLKWRITE and SERCTL_BLKWRITE verbs only update the
local copy of the handle record; the record behind arg keeps its old
flags (both verbs still return 0), so a subsequent ser_write_r on a
handle that was switched to non-blocking still takes the write lock
with the indefinite timeout. -/
theorem serctl_flag_verbs_mutate_local_copy_only :
    (serctl (some ⟨STDOUT_STREAM_ID, 0⟩) SerctlAction.noblkwrite 0 [STDOUT_STREAM_ID] 1).handle =
      some ⟨STDOUT_STREAM_ID, 0⟩ ∧
    (serctl (some ⟨STDOUT_STREAM_ID, 0⟩) SerctlAction.noblkwrite 0 [STDOUT_STREAM_ID] 1).ret = 0 ∧
    (serctl (some ⟨STDOUT_STREAM_ID, 0⟩) SerctlAction.noblkwrite 0 [STDOUT_STREAM_ID] 1).localFile =
      some ⟨STDOUT_STREAM_ID, 1⟩ ∧
    (serctl (some ⟨STDOUT_STREAM_ID, 1⟩) SerctlAction.blkwrite 0 [STDOUT_STREAM_ID] 1).handle =
      some ⟨STDOUT_STREAM_ID, 1⟩ ∧
    (serctl (some ⟨STDOUT_STREAM_ID, 1⟩) SerctlAction.blkwrite 0 [STDOUT_STREAM_ID] 1).ret = 0 ∧
    (ser_write_r (fun _ => true) ⟨STDOUT_STREAM_ID, 0⟩ [STDOUT_STREAM_ID] 1 [] []).map
        WriteResult.lockTimeout = some (some TIMEOUT_MAX) := by
  decide

/-- C5: when the queue holds n waiting bytes, the transport reports at
least n bytes free, and the bulk write accepts k bytes, a flush removes
exactly k bytes from the head when k < n (keeping the remaining n - k
in order) and resets the queue to empty when k = n. -/
theorem flush_partial_acceptance (queue : List Nat) (free accepted : Nat)
    (h0 : 0 < queue.length) (hfree : queue.length ≤ free) :
    (accepted < queue.length →
      ser_output_flush queue free accepted = queue.drop accepted ∧
      (ser_output_flush queue free accepted).length = queue.length - accepted) ∧
    (accepted = queue.length → ser_output_flush queue free accepted = []) := by
  constructor
  · intro hk
    have hne : accepted ≠ queue.length := Nat.ne_of_lt hk
    unfold ser_output_flush
    rw [if_pos ⟨Nat.pos_iff_ne_zero.mp h0, hfree⟩, if_neg hne, queueRecvN_eq_drop]
    exact ⟨rfl, by simp⟩
  · intro hk
    unfold ser_output_flush
    rw [if_pos ⟨Nat.pos_iff_ne_zero.mp h0, hfree⟩, if_pos hk]

/-- Witness for C5: ten waiting bytes, three accepted, seven left in
order; ten accepted empties the queue. -/
theorem flush_partial_acceptance_witness :
    0 < ([0, 1, 2, 3, 4, 5, 6, 7, 8, 9] : List Nat).length ∧
    ([0, 1, 2, 3, 4, 5, 6, 7, 8, 9] : List Nat).length ≤ 12 ∧
    ((3 : Nat) < ([0, 1, 2, 3, 4, 5, 6, 7, 8, 9] : List Nat).length →
      ser_output_flush [0, 1, 2, 3, 4, 5, 6, 7, 8, 9] 12 3 =
        ([0, 1, 2, 3, 4, 5, 6, 7, 8, 9] : List Nat).drop 3 ∧
      (ser_output_flush [0, 1, 2, 3, 4, 5, 6, 7, 8, 9] 12 3).length =
        ([0, 1, 2, 3, 4, 5, 6, 7, 8, 9] : List Nat).length - 3) ∧
    ((10 : Nat) = ([0, 1, 2, 3, 4, 5, 6, 7, 8, 9] : List Nat).length →
      ser_output_flush [0, 1, 2, 3, 4, 5, 6, 7, 8, 9] 12 10 = []) :=
  ⟨by decide, by decide,
    (flush_partial_acceptance [0, 1, 2, 3, 4, 5, 6, 7, 8, 9] 12 3 (by decide) (by decide)).1,
    (flush_partial_acceptance [0, 1, 2, 3, 4, 5, 6, 7, 8, 9] 12 10 (by decide) (by decide)).2⟩

/-- C4: once a write passes the policy filter, the timeout handed to the
write-lock acquisition is unconditionally indefinite when framing is
disabled, and zero or indefinite according to the E_NOBLK_WRITE flag of
the handle when framing is enabled. -/
theorem write_lock_timeout_policy (mt : Nat → Bool) (file : ser_file_s_t)
    (enabled : List Nat) (config : Nat) (queue buf : List Nat)
    (hf : ser_write_filtered enabled file.stream_id = false) :
    ∀ res, ser_write_r mt file enabled config queue buf = some res →
      res.lockTimeout =
        some (if config.land E_COBS_ENABLED ≠ 0 then
                (if file.flags.land E_NOBLK_WRITE ≠ 0 then 0 else TIMEOUT_MAX)
              else TIMEOUT_MAX) := by
  intro res hres
  simp only [ser_write_r, hf, Bool.false_eq_true, if_false] at hres
  by_cases hc : config.land E_COBS_ENABLED ≠ 0
  · rw [if_pos hc] at hres
    rw [if_pos hc]
    by_cases hb : file.flags.land E_NOBLK_WRITE ≠ 0
    · rw [if_pos hb] at hres
      rw [if_pos hb]
      split at hres
      · injection hres with h; subst h; rfl
      · split at hres
        · exact absurd hres (by simp)
        · injection hres with h; subst h; rfl
        · injection hres with h; subst h; rfl
    · rw [if_neg hb] at hres
      rw [if_neg hb]
      split at hres
      · injection hres with h; subst h; rfl
      · split at hres
        · exact absurd hres (by simp)
        · injection hres with h; subst h; rfl
        · injection hres with h; subst h; rfl
  · rw [if_neg hc] at hres
    rw [if_neg hc]
    split at hres
    · injection hres with h; subst h; rfl
    · split at hres
      · exact absurd hres (by simp)
      · injection hres with h; subst h; rfl
      · injection hres with h; subst h; rfl

/-- Witness for C4: with framing disabled and a non-blocking handle the
lock is still taken with the indefinite timeout. -/
theorem write_lock_timeout_policy_witness :
    ser_write_filtered [STDOUT_STREAM_ID] STDOUT_STREAM_ID = false ∧
    ser_write_r (fun _ => true) ⟨STDOUT_STREAM_ID, 1⟩ [STDOUT_STREAM_ID] 0 [] [7] =
      some { ret := 1, errno := none, queue := [7], config := 0,
             lockTimeout := some TIMEOUT_MAX } ∧
    WriteResult.lockTimeout
        { ret := 1, errno := none, queue := [7], config := 0,
          lockTimeout := some TIMEOUT_MAX } =
      some (if (0 : Nat).land E_COBS_ENABLED ≠ 0 then
              (if (1 : Nat).land E_NOBLK_WRITE ≠ 0 then 0 else TIMEOUT_MAX)
            else TIMEOUT_MAX) :=
  ⟨by decide, by decide,
    write_lock_timeout_policy (fun _ => true) ⟨STDOUT_STREAM_ID, 1⟩ [STDOUT_STREAM_ID] 0 [] [7]
      (by decide) _ (by decide)⟩

/-- C6: a read-lock failure makes ser_read_r return 0 with errno EACCES
and no stores, and a write-lock failure makes ser_write_r return 0 with
errno EACCES and the queue untouched. -/
theorem lock_failure_access_denied (input : List Int) (len : Nat) (mt : Nat → Bool)
    (file : ser_file_s_t) (enabled : List Nat) (config : Nat) (queue buf : List Nat)
    (hf : ser_write_filtered enabled file.stream_id = false)
    (hmt : ∀ t, mt t = false) :
    ser_read_r false input len = some { writes := [], ret := 0, errno := some EACCES } ∧
    (∀ res, ser_write_r mt file enabled config queue buf = some res →
      res.ret = 0 ∧ res.errno = some EACCES ∧ res.queue = queue) := by
  refine ⟨rfl, ?_⟩
  intro res hres
  simp only [ser_write_r, hf, Bool.false_eq_true, if_false, hmt, eq_self_iff_true,
    if_true] at hres
  split at hres <;> (injection hres with h; subst h; exact ⟨rfl, rfl, rfl⟩)

/-- Witness for C6 with always-failing locks. -/
theorem lock_failure_access_denied_witness :
    ser_write_filtered [STDOUT_STREAM_ID] STDOUT_STREAM_ID = false ∧
    (∀ t, (fun _ : Nat => false) t = false) ∧
    ser_read_r false [65] 4 = some { writes := [], ret := 0, errno := some EACCES } ∧
    (∀ res,
      ser_write_r (fun _ => false) ⟨STDOUT_STREAM_ID, 0⟩ [STDOUT_STREAM_ID] 1 [9] [1] =
        some res →
      res.ret = 0 ∧ res.errno = some EACCES ∧ res.queue = [9]) :=
  ⟨by decide, fun _ => rfl,
    (lock_failure_access_denied [65] 4 (fun _ => false) ⟨STDOUT_STREAM_ID, 0⟩
        [STDOUT_STREAM_ID] 1 [9] [1] (by decide) (fun _ => rfl)).1,
    (lock_failure_access_denied [65] 4 (fun _ => false) ⟨STDOUT_STREAM_ID, 0⟩
        [STDOUT_STREAM_ID] 1 [9] [1] (by decide) (fun _ => rfl)).2⟩

/-- C9: with framing disabled, an enabled stream, an acquired lock and
room in the queue, ser_write_r appends exactly the raw payload bytes in
order, with no stream-id bytes and no delimiter, and returns the
payload length. -/
theorem write_raw_passthrough (mt : Nat → Bool) (file : ser_file_s_t)
    (enabled : List Nat) (config : Nat) (queue buf : List Nat)
    (hen : set_contains enabled file.stream_id = true)
    (hcfg : config.land E_COBS_ENABLED = 0)
    (hmt : mt TIMEOUT_MAX = true)
    (hroom : queue.length + buf.length ≤ VEX_SERIAL_BUFFER_SIZE) :
    ser_write_r mt file enabled config queue buf =
      some { ret := buf.length, errno := none, queue := queue ++ buf, config := 0,
             lockTimeout := some TIMEOUT_MAX } := by
  have hf : ser_write_filtered enabled file.stream_id = false := by
    simp [ser_write_filtered, hen]
  have hw := ser_output_write_success (decide (file.flags.land E_NOBLK_WRITE ≠ 0)) buf queue hroom
  simp only [ser_write_r, hf, Bool.false_eq_true, if_false]
  rw [hcfg, if_neg (fun h => h rfl), hmt, if_neg (by simp), hw]

/-- Witness for C9: the spec scenario, payload 01 02 03 to the enabled
stdout stream with framing off. -/
theorem write_raw_passthrough_witness :
    set_contains [STDOUT_STREAM_ID] STDOUT_STREAM_ID = true ∧
    (0 : Nat).land E_COBS_ENABLED = 0 ∧
    (fun _ : Nat => true) TIMEOUT_MAX = true ∧
    ([] : List Nat).length + ([1, 2, 3] : List Nat).length ≤ VEX_SERIAL_BUFFER_SIZE ∧
    ser_write_r (fun _ => true) ⟨STDOUT_STREAM_ID, 0⟩ [STDOUT_STREAM_ID] 0 [] [1, 2, 3] =
      some { ret := 3, errno := none, queue := [1, 2, 3], config := 0,
             lockTimeout := some TIMEOUT_MAX } :=
  ⟨by decide, by decide, rfl, by decide,
    write_raw_passthrough (fun _ => true) ⟨STDOUT_STREAM_ID, 0⟩ [STDOUT_STREAM_ID] 0 [] [1, 2, 3]
      (by decide) (by decide) rfl (by decide)⟩

/-! Read-loop lemmas. -/

theorem serReadLoop_length (len : Nat) :
    ∀ (input : List Int) (tr out : List (Nat × Nat)), tr.length ≤ len →
      serReadLoop len input tr = some out → out.length ≤ len := by
  intro input
  induction input with
  | nil =>
    intro tr out htr h
    simp only [serReadLoop] at h
    split at h
    · injection h with h2; subst h2; exact htr
    · split at h
      · injection h with h2; subst h2; exact htr
      · exact absurd h (by simp)
  | cons c rest ih =>
    intro tr out htr h
    simp only [serReadLoop] at h
    split at h
    · injection h with h2; subst h2; exact htr
    · rename_i h1
      split at h
      · split at h
        · injection h with h2; subst h2; exact htr
        · exact ih tr out htr h
      · split at h
        · injection h with h2; subst h2
          simp only [List.length_append, List.length_cons, List.length_nil]
          omega
        · exact ih _ out (by simp; omega) h

theorem serReadLoop_fst (len : Nat) :
    ∀ (input : List Int) (tr out : List (Nat × Nat)),
      tr.map Prod.fst = List.range tr.length →
      serReadLoop len input tr = some out → out.map Prod.fst = List.range out.length := by
  intro input
  induction input with
  | nil =>
    intro tr out htr h
    simp only [serReadLoop] at h
    split at h
    · injection h with h2; subst h2; exact htr
    · split at h
      · injection h with h2; subst h2; exact htr
      · exact absurd h (by simp)
  | cons c rest ih =>
    intro tr out htr h
    simp only [serReadLoop] at h
    split at h
    · injection h with h2; subst h2; exact htr
    · split at h
      · split at h
        · injection h with h2; subst h2; exact htr
        · exact ih tr out htr h
      · have htr2 : (tr ++ [(tr.length, ((c : Int) % 256).toNat)]).map Prod.fst =
            List.range (tr ++ [(tr.length, ((c : Int) % 256).toNat)]).length := by
          simp [htr, List.range_succ]
        split at h
        · injection h with h2; subst h2; exact htr2
        · exact ih _ out htr2 h

theorem serReadLoop_no_newline (len : Nat) :
    ∀ (input : List Int) (tr out : List (Nat × Nat)),
      (∀ c ∈ input, c = -1 ∨ (0 ≤ c ∧ c < 256)) →
      (∀ w ∈ tr, w.2 ≠ 10) →
      serReadLoop len input tr = some out →
      ∀ w ∈ out.dropLast, w.2 ≠ 10 := by
  intro input
  induction input with
  | nil =>
    intro tr out _ htr h
    simp only [serReadLoop] at h
    split at h
    · injection h with h2; subst h2
      exact fun w hw => htr w (List.dropLast_subset _ hw)
    · split at h
      · injection h with h2; subst h2
        exact fun w hw => htr w (List.dropLast_subset _ hw)
      · exact absurd h (by simp)
  | cons c rest ih =>
    intro tr out hb htr h
    have hbrest : ∀ x ∈ rest, x = -1 ∨ (0 ≤ x ∧ x < 256) :=
      fun x hx => hb x (List.mem_cons_of_mem c hx)
    simp only [serReadLoop] at h
    split at h
    · injection h with h2; subst h2
      exact fun w hw => htr w (List.dropLast_subset _ hw)
    · split at h
      · split at h
        · injection h with h2; subst h2
          exact fun w hw => htr w (List.dropLast_subset _ hw)
        · exact ih tr out hbrest htr h
      · rename_i hm1
        split at h
        · injection h with h2; subst h2
          rw [List.dropLast_concat]
          exact htr
        · rename_i h10
          refine ih _ out hbrest ?_ h
          intro w hw
          rcases List.mem_append.mp hw with hw1 | hw2
          · exact htr w hw1
          · have hw3 : w = (tr.length, ((c : Int) % 256).toNat) := by
              simpa using hw2
            subst hw3
            rcases hb c (List.mem_cons_self c rest) with hc | hc
            · exact absurd hc hm1
            · show ((c % 256).toNat : Nat) ≠ 10
              omega

/-- C7: with the read lock held and a positive caller length, the read
loop stores inbound bytes one at a time: it never exceeds len stores, a
stored newline can only be the last store, a no-data signal with
nothing accumulated keeps the loop polling, a no-data signal with
something accumulated ends the loop with what was accumulated, and
ser_read_r returns the number of bytes stored. -/
theorem read_accumulate_semantics (input : List Int) (len : Nat) (hlen : 0 < len)
    (hb : ∀ c ∈ input, c = -1 ∨ (0 ≤ c ∧ c < 256)) :
    (∀ tr, serReadLoop len input [] = some tr →
      tr.length ≤ len ∧
      (∀ w ∈ tr.dropLast, w.2 ≠ 10) ∧
      ser_read_r true input len =
        some { writes := tr ++ [(tr.length, 0)], ret := tr.length, errno := none }) ∧
    serReadLoop len ((-1 : Int) :: input) [] = serReadLoop len input [] ∧
    (∀ tr : List (Nat × Nat), tr ≠ [] → tr.length < len →
      serReadLoop len ((-1 : Int) :: input) tr = some tr) := by
  refine ⟨?_, ?_, ?_⟩
  · intro tr h
    refine ⟨serReadLoop_length len input [] tr (Nat.zero_le len) h,
      serReadLoop_no_newline len input [] tr hb (by simp) h, ?_⟩
    unfold ser_read_r
    rw [if_pos rfl, h]
  · rw [serReadLoop, if_neg (by simp; omega), if_pos rfl, if_neg (by simp)]
  · intro tr hne hlt
    rw [serReadLoop, if_neg (by omega), if_pos rfl,
      if_pos (List.length_pos.mpr hne)]

/-- Witness for C7: one no-data signal, then byte 72, then a newline that
ends the read inclusively with two bytes stored. -/
theorem read_accumulate_semantics_witness :
    (0 : Nat) < 8 ∧
    (∀ c ∈ ([-1, 72, 10, 65] : List Int), c = -1 ∨ (0 ≤ c ∧ c < 256)) ∧
    (([(0, 72), (1, 10)] : List (Nat × Nat)).length ≤ 8 ∧
      (∀ w ∈ ([(0, 72), (1, 10)] : List (Nat × Nat)).dropLast, w.2 ≠ 10) ∧
      ser_read_r true [-1, 72, 10, 65] 8 =
        some { writes := [(0, 72), (1, 10), (2, 0)], ret := 2, errno := none }) :=
  ⟨by decide, by decide,
    (read_accumulate_semantics [-1, 72, 10, 65] 8 (by decide) (by decide)).1
      [(0, 72), (1, 10)] (by decide)⟩

/-- C10: every locked ser_read_r path stores a zero byte at index read,
one past the last accumulated byte, so read + 1 stores happen in total
and the highest touched index is read, which can reach len — the caller
buffer must hold len + 1 bytes. -/
theorem read_null_terminator_bounds (input : List Int) (len : Nat) :
    ∀ res, ser_read_r true input len = some res →
      res.ret ≤ len ∧
      res.writes.length = res.ret + 1 ∧
      res.writes.getLast? = some (res.ret, 0) ∧
      ∀ w ∈ res.writes, w.1 ≤ len := by
  intro res hres
  unfold ser_read_r at hres
  rw [if_pos rfl] at hres
  cases hl : serReadLoop len input [] with
  | none => rw [hl] at hres; exact absurd hres (by simp)
  | some tr =>
    rw [hl] at hres
    injection hres with h2
    subst h2
    have hlen := serReadLoop_length len input [] tr (Nat.zero_le len) hl
    have hfst := serReadLoop_fst len input [] tr (by simp) hl
    refine ⟨hlen, by simp, List.getLast?_concat _, ?_⟩
    intro w hw
    rcases List.mem_append.mp hw with hw1 | hw2
    · have : w.1 ∈ tr.map Prod.fst := List.mem_map_of_mem Prod.fst hw1
      rw [hfst] at this
      have := List.mem_range.mp this
      omega
    · have hw3 : w = (tr.length, 0) := by simpa using hw2
      subst hw3
      exact hlen

/-- Witness for C10: a read that fills a 2-byte caller buffer performs 3
stores, the last a zero at index 2. -/
theorem read_null_terminator_bounds_witness :
    ser_read_r true [65, 66] 2 =
      some { writes := [(0, 65), (1, 66), (2, 0)], ret := 2, errno := none } ∧
    ((2 : Nat) ≤ 2 ∧ ([(0, 65), (1, 66), (2, 0)] : List (Nat × Nat)).length = 2 + 1 ∧
      ([(0, 65), (1, 66), (2, 0)] : List (Nat × Nat)).getLast? = some (2, 0) ∧
      ∀ w ∈ ([(0, 65), (1, 66), (2, 0)] : List (Nat × Nat)), w.1 ≤ 2) :=
  ⟨by decide,
    read_null_terminator_bounds [65, 66] 2
      { writes := [(0, 65), (1, 66), (2, 0)], ret := 2, errno := none } (by decide)⟩

/-! Open-path lemmas. -/

theorem cstrNth_eq_null_iff (p : List Char) (hn : ∀ c ∈ p, c ≠ Char.ofNat 0) (k : Nat) :
    cstrNth p k = Char.ofNat 0 ↔ p.length ≤ k := by
  unfold cstrNth
  split
  · rename_i h
    constructor
    · intro hz
      exact absurd hz (hn _ (List.get_mem p k h))
    · intro hk
      omega
  · rename_i h
    constructor
    · intro _
      omega
    · intro _
      rfl

theorem serOpen_tooLong_iff (p : List Char) (hn : ∀ c ∈ p, c ≠ Char.ofNat 0) :
    (cstrNth p (serOpenLenLoop p) ≠ Char.ofNat 0) ↔ 4 < p.length := by
  unfold serOpenLenLoop
  split_ifs with h0 h1 h2 h3 <;> simp only [ne_eq, cstrNth_eq_null_iff p hn] at * <;> omega

/-- C8: ser_open_r maps the empty path to the stdout descriptor, the
stripped reserved names sout, sin and serr to the stdout, stdin and
stderr descriptors, and fails with ENAMETOOLONG exactly when the
stripped path is longer than four characters. -/
theorem open_path_mapping (path : List Char) (hn : ∀ c ∈ path, c ≠ Char.ofNat 0) :
    (path = [] → ser_open_r path = OpenResult.fd STDOUT_FILENO) ∧
    (serStrippedPath path = "sout".toList → ser_open_r path = OpenResult.fd STDOUT_FILENO) ∧
    (serStrippedPath path = "sin".toList → ser_open_r path = OpenResult.fd STDIN_FILENO) ∧
    (serStrippedPath path = "serr".toList → ser_open_r path = OpenResult.fd STDERR_FILENO) ∧
    (ser_open_r path = OpenResult.err ENAMETOOLONG ↔ 4 < (serStrippedPath path).length) := by
  by_cases he : path = []
  · subst he
    exact ⟨fun _ => rfl, by decide, by decide, by decide, by decide⟩
  · have hnp : ∀ c ∈ serStrippedPath path, c ≠ Char.ofNat 0 := by
      intro c hc
      apply hn
      cases path with
      | nil => exact absurd rfl he
      | cons a rest =>
        simp only [serStrippedPath] at hc
        split at hc
        · exact List.mem_cons_of_mem a hc
        · exact hc
    have hiff := serOpen_tooLong_iff (serStrippedPath path) hnp
    refine ⟨fun h => absurd h he, ?_, ?_, ?_, ?_⟩
    · intro hs
      unfold ser_open_r
      rw [if_neg he, hs]
      decide
    · intro hs
      unfold ser_open_r
      rw [if_neg he, hs]
      decide
    · intro hs
      unfold ser_open_r
      rw [if_neg he, hs]
      decide
    · simp only [ser_open_r, he, if_false]
      by_cases ht : cstrNth (serStrippedPath path) (serOpenLenLoop (serStrippedPath path)) ≠
          Char.ofNat 0
      · rw [if_pos ht]
        simp [hiff.mp ht]
      · rw [if_neg ht]
        have hr : ¬ (4 < (serStrippedPath path).length) := fun h4 => ht (hiff.mpr h4)
        simp only [hr, iff_false]
        split_ifs <;> simp

/-- Witness for C8: the spec scenarios — open serr gives the stderr
descriptor, the empty path gives stdout, and a 7-character path fails
with ENAMETOOLONG. -/
theorem open_path_mapping_witness :
    (∀ c ∈ "serr".toList, c ≠ Char.ofNat 0) ∧
    ser_open_r "serr".toList = OpenResult.fd STDERR_FILENO ∧
    ser_open_r [] = OpenResult.fd STDOUT_FILENO ∧
    (ser_open_r "toolong".toList = OpenResult.err ENAMETOOLONG ↔
      4 < (serStrippedPath "toolong".toList).length) :=
  ⟨by decide,
    (open_path_mapping "serr".toList (by decide)).2.2.2.1 (by decide),
    (open_path_mapping [] (by decide)).1 rfl,
    (open_path_mapping "toolong".toList (by decide)).2.2.2.2⟩

end SerDriver
